import Mathlib

set_option maxRecDepth 200000

/-!
Verification of the grid-state and interaction engine of a grid-based
token-merging game. The embedding follows the final source file
(localStorage variant): game state is the module state (playerPos,
heldToken, cellContents, visitedCells), `redrawGrid` materializes the
viewport window and spawns newly visited cells, the cell click handler
implements the pick-up / merge / swap rule behind a reachability gate,
and `saveState` / `loadState` persist and restore the state.

JavaScript `Map<string, number>` is embedded as an insertion-ordered
association list with `mapGet` / `mapSet` / `mapDelete`; `Set<string>`
as a list with guarded append. Numbers that are grid coordinates or
token values are integers throughout the program, so they are embedded
as `ℤ`; the pseudo-random draws live in `[0,1)` and are embedded as `ℚ`.
-/

/-- Lookup in a JS `Map` embedded as an association list. -/
def mapGet : List (String × ℤ) → String → Option ℤ
  | [], _ => none
  | kv :: rest, k => if kv.1 = k then some kv.2 else mapGet rest k

/-- JS `Map.set`: replace the value in place when the key is present,
otherwise append the new entry (JS maps are insertion-ordered). -/
def mapSet : List (String × ℤ) → String → ℤ → List (String × ℤ)
  | [], k, v => [(k, v)]
  | kv :: rest, k, v => if kv.1 = k then (k, v) :: rest else kv :: mapSet rest k v

/-- JS `Map.delete`: remove the entry with the given key. -/
def mapDelete : List (String × ℤ) → String → List (String × ℤ)
  | [], _ => []
  | kv :: rest, k => if kv.1 = k then mapDelete rest k else kv :: mapDelete rest k

/-- Modelled from the spec: the source imports `luck` from `./_luck.ts`,
a file that is not part of the provided sources; only its contract is
specified (§4.1): a pure deterministic map from a string key to a
reproducible pseudo-random value in `[0,1)`, with no hidden global
counter. We model it as a deterministic polynomial hash of the key's
characters scaled into `[0,1)`. -/
def luck (key : String) : ℚ :=
  mkRat (key.data.foldl (fun a c => (a * 31 + c.toNat) % 1000) 7 : ℕ) 1000

/-- Source constant `TILE_DEGREES = 1e-4` — angular size of one grid cell. -/
def TILE_DEGREES : ℚ := 1e-4

/-- Source constant `GRID_SIZE = 5` — visibility radius of the viewport window. -/
def GRID_SIZE : ℤ := 5

/-- The mutable module state: player position, held token, cell store
and visited set. -/
structure GameState where
  playerPosI : ℤ
  playerPosJ : ℤ
  heldToken : Option ℤ
  cellContents : List (String × ℤ)
  visited : List String
deriving DecidableEq

/-- Defaults at process start: origin position, no held token, empty
cell store, empty visited set. -/
def initialState : GameState :=
  { playerPosI := 0, playerPosJ := 0, heldToken := none
    cellContents := [], visited := [] }

/-- The canonical string key of a cell: `` `${i},${j}` ``. -/
def cellKey (i j : ℤ) : String := toString i ++ "," ++ toString j

/-- The source literal `0.5` (the presence threshold), written with
`mkRat` so that it evaluates by kernel reduction. -/
def spawnThreshold : ℚ := mkRat 1 2

/-- The source literal `0.7` (the magnitude threshold), written with
`mkRat` so that it evaluates by kernel reduction. -/
def valueThreshold : ℚ := mkRat 7 10

/-- The body of `redrawGrid`'s loop for one cell key (lines 427–435):
if the key is not yet visited, mark it visited, roll the presence draw,
and on success roll the magnitude draw and store value 1 or 2. -/
def spawnStep (s : GameState) (key : String) : GameState :=
  if key ∉ s.visited then
    let s1 : GameState := { s with visited := s.visited ++ [key] }
    let spawnRoll := luck key
    if spawnRoll < spawnThreshold then
      let valueRoll := luck (key ++ "value")
      let value : ℤ := if valueRoll < valueThreshold then 1 else 2
      { s1 with cellContents := mapSet s1.cellContents key value }
    else s1
  else s

/-- Loop range of `redrawGrid`: `center - GRID_SIZE … center + GRID_SIZE`. -/
def gridRange (center : ℤ) : List ℤ :=
  (List.range 11).map (fun n => center - GRID_SIZE + (n : ℤ))

/-- The keys of the viewport window in loop order (`i` outer, `j` inner). -/
def windowKeys (centerI centerJ : ℤ) : List String :=
  (gridRange centerI).flatMap (fun i => (gridRange centerJ).map (fun j => cellKey i j))

/-- Function `redrawGrid` restricted to game state (rendering is out of scope):
walk the viewport window centered on the player and run the
spawn-on-first-visit step for every key. -/
def redrawGrid (s : GameState) : GameState :=
  (windowKeys s.playerPosI s.playerPosJ).foldl spawnStep s

/-- Result of a cell click: the new state plus the observable effects —
whether `autoSave` ran, whether the win alert fired, and whether the
reachability error was reported. -/
structure InteractResult where
  state : GameState
  persisted : Bool
  winSignal : Bool
  reachError : Bool
deriving DecidableEq

/-- The cell click handler (lines 446–482): reachability gate first,
then branch on `(heldToken, cellValue)` — pick up, merge (doubling,
win alert at 256), or swap. -/
def attemptInteraction (s : GameState) (i j : ℤ) : InteractResult :=
  let distI := |i - s.playerPosI|
  let distJ := |j - s.playerPosJ|
  if distI > 3 ∨ distJ > 3 then
    { state := s, persisted := false, winSignal := false, reachError := true }
  else
    let key := cellKey i j
    let cellValue := mapGet s.cellContents key
    match s.heldToken, cellValue with
    | none, none => { state := s, persisted := false, winSignal := false, reachError := false }
    | none, some v =>
        { state := { s with heldToken := some v, cellContents := mapDelete s.cellContents key }
          persisted := true, winSignal := false, reachError := false }
    | some _, none => { state := s, persisted := false, winSignal := false, reachError := false }
    | some h, some v =>
        if h = v then
          let newValue := h * 2
          { state := { s with heldToken := some newValue
                              cellContents := mapDelete s.cellContents key }
            persisted := true, winSignal := decide (newValue = 256), reachError := false }
        else
          { state := { s with cellContents := mapSet s.cellContents key h
                              heldToken := some v }
            persisted := true, winSignal := false, reachError := false }

/-- The memento written by `saveState`: `{ playerPos, heldToken,
cellContents }`, with the cell store exported entry-by-entry. -/
structure SavedGameState where
  playerPosI : ℤ
  playerPosJ : ℤ
  heldToken : Option ℤ
  cellContents : List (String × ℤ)
deriving DecidableEq

/-- Function `saveState`: snapshot the current player position, held token and
cell store entries. -/
def saveState (s : GameState) : SavedGameState :=
  { playerPosI := s.playerPosI, playerPosJ := s.playerPosJ
    heldToken := s.heldToken, cellContents := s.cellContents }

/-- A JSON field value as far as `loadState`'s runtime checks can tell:
a number, a string, or null. -/
inductive JVal where
  | jnum (n : ℤ)
  | jstr (s : String)
  | jnull
deriving DecidableEq

/-- A persisted record as parsed from storage, before any field
validation: `playerPos` may be absent or have non-numeric components,
`cellContents` entries may be non-numeric. (`heldToken` is
`number | null`; the corrupt-record scenario corrupts `playerPos`.) -/
structure RawSaved where
  playerPos : Option (JVal × JVal)
  heldToken : Option ℤ
  cellContents : Option (List (String × JVal))
deriving DecidableEq

/-- The guard on lines 529–532: `gameState.playerPos` is truthy and both
`playerPos.i` and `playerPos.j` are numbers. -/
def playerPosValid : Option (JVal × JVal) → Bool
  | some (JVal.jnum _, JVal.jnum _) => true
  | _ => false

/-- The `cellContents` restore loop (lines 541–548): clear the cell
store, then re-insert exactly the entries whose value is a number. -/
def importCellContents : Option (List (String × JVal)) → List (String × ℤ)
  | some entries =>
      entries.foldl
        (fun m kv => match kv.2 with
          | JVal.jnum n => mapSet m kv.1 n
          | _ => m)
        []
  | none => []

/-- Function `loadState` (lines 526–558) on a parsed record: adopt `playerPos`
only if both components are numbers; adopt `heldToken` unconditionally;
clear the cell store and re-insert the numeric entries of
`cellContents`; rebuild the visited set from the cell store's keys;
then `redrawGrid`. -/
def loadStateRaw (s : GameState) (g : RawSaved) : GameState :=
  let pp : ℤ × ℤ := match g.playerPos with
    | some (JVal.jnum a, JVal.jnum b) => (a, b)
    | _ => (s.playerPosI, s.playerPosJ)
  let cc := importCellContents g.cellContents
  let vis := cc.map Prod.fst
  redrawGrid
    { playerPosI := pp.1, playerPosJ := pp.2, heldToken := g.heldToken
      cellContents := cc, visited := vis }

/-- A well-formed save as it appears after `JSON.stringify` /
`JSON.parse`: every field present and numeric. -/
def savedToRaw (g : SavedGameState) : RawSaved :=
  { playerPos := some (JVal.jnum g.playerPosI, JVal.jnum g.playerPosJ)
    heldToken := g.heldToken
    cellContents := some (g.cellContents.map (fun kv => (kv.1, JVal.jnum kv.2))) }

/-- Function `loadState` applied to a well-formed save. -/
def loadState (s : GameState) (g : SavedGameState) : GameState :=
  loadStateRaw s (savedToRaw g)

/-- Method `GeolocationMovementController.latLngToGrid` (lines 181–189):
`i = Math.floor(lat / TILE_DEGREES)`, `j = Math.floor(lng / TILE_DEGREES)`. -/
def latLngToGrid (lat lng : ℚ) : ℤ × ℤ :=
  (⌊lat / TILE_DEGREES⌋, ⌊lng / TILE_DEGREES⌋)

/-- Method `GeolocationMovementController.shouldUpdatePosition` (lines 190–204):
accept when there is no previous accepted grid position, or when the new
grid position differs by at least one cell on either axis. -/
def shouldUpdatePosition (lastGridPos : Option (ℤ × ℤ)) (newGridPos : ℤ × ℤ) : Bool :=
  match lastGridPos with
  | none => true
  | some q =>
      decide (|newGridPos.1 - q.1| ≥ 1) || decide (|newGridPos.2 - q.2| ≥ 1)

/-- Method `GeolocationMovementController.handlePositionUpdate` (lines 144–156)
together with `updatePlayerPosition` (lines 206–218), on the game state
and the controller's `lastGridPos`: map the sample to a grid coordinate
and, if accepted, move the player there and redraw the grid. -/
def handlePositionUpdate (s : GameState) (lastGridPos : Option (ℤ × ℤ)) (lat lng : ℚ) :
    GameState × Option (ℤ × ℤ) :=
  let gridPos := latLngToGrid lat lng
  if shouldUpdatePosition lastGridPos gridPos then
    (redrawGrid { s with playerPosI := gridPos.1, playerPosJ := gridPos.2 }, some gridPos)
  else
    (s, lastGridPos)

/-- A token value is a power of two. -/
def IsPow2 (n : ℤ) : Prop := ∃ k : ℕ, n = 2 ^ k

/-- Every token in the game — held or stored — is a power of two. -/
def GoodState (s : GameState) : Prop :=
  (∀ v, s.heldToken = some v → IsPow2 v) ∧ (∀ kv ∈ s.cellContents, IsPow2 kv.2)

/-- A concrete reachable state: fresh start, first viewport draw, then
the player clicks cell (0,0) and picks up the token spawned there. -/
def playedState : GameState := (attemptInteraction (redrawGrid initialState) 0 0).state

/-- A corrupt persisted record as in Scenario E: `playerPos.i` is a
string; the other fields are well-formed. -/
def corruptRecord : RawSaved :=
  { playerPos := some (JVal.jstr "oops", JVal.jnum 3), heldToken := some 5
    cellContents := some [("1,2", JVal.jnum 4)] }

/-- A small state with one token in a visited reachable cell. -/
def branchState : GameState := GameState.mk 0 0 none [("0,1", 1)] ["0,1"]

/-- A state one merge away from the win threshold: the player holds 128
and a reachable visited cell holds 128. -/
def mergeState : GameState := GameState.mk 0 0 (some 128) [("0,1", 128)] ["0,1"]

/-- A state whose spawn decision at cell (7,7) has not yet been made. -/
def probeState : GameState := GameState.mk 1 1 (some 4) [("9,9", 8)] ["5,5"]

/-! ### Association-list lemmas -/

theorem mapGet_mapSet_self (m : List (String × ℤ)) (k : String) (v : ℤ) :
    mapGet (mapSet m k v) k = some v := by
  induction m with
  | nil => simp [mapSet, mapGet]
  | cons kv rest ih =>
      by_cases h : kv.1 = k
      · simp [mapSet, h, mapGet]
      · simp [mapSet, h, mapGet, ih]

theorem mapGet_mapSet_of_ne (m : List (String × ℤ)) (k : String) (v : ℤ) (k2 : String)
    (h : k ≠ k2) : mapGet (mapSet m k v) k2 = mapGet m k2 := by
  induction m with
  | nil => simp [mapSet, mapGet, h]
  | cons kv rest ih =>
      by_cases hk : kv.1 = k
      · simp [mapSet, hk, mapGet, h, hk ▸ h]
      · simp [mapSet, hk, mapGet, ih]

theorem mapGet_mapDelete_self (m : List (String × ℤ)) (k : String) :
    mapGet (mapDelete m k) k = none := by
  induction m with
  | nil => simp [mapDelete, mapGet]
  | cons kv rest ih =>
      by_cases h : kv.1 = k
      · simp [mapDelete, h, ih]
      · simp [mapDelete, h, mapGet, ih]

theorem mapGet_mapDelete_of_ne (m : List (String × ℤ)) (k k2 : String)
    (h : k ≠ k2) : mapGet (mapDelete m k) k2 = mapGet m k2 := by
  induction m with
  | nil => simp [mapDelete]
  | cons kv rest ih =>
      by_cases hk : kv.1 = k
      · rw [mapDelete, if_pos hk, ih, mapGet, if_neg (hk ▸ h : kv.1 ≠ k2)]
      · rw [mapDelete, if_neg hk, mapGet, mapGet]
        by_cases h2 : kv.1 = k2
        · rw [if_pos h2, if_pos h2]
        · rw [if_neg h2, if_neg h2, ih]

theorem mapGet_eq_some_mem (m : List (String × ℤ)) (k : String) (v : ℤ)
    (h : mapGet m k = some v) : (k, v) ∈ m := by
  induction m with
  | nil => simp [mapGet] at h
  | cons kv rest ih =>
      rw [mapGet] at h
      by_cases hk : kv.1 = k
      · rw [if_pos hk] at h
        have h2 : kv = (k, v) := by
          obtain ⟨a, b⟩ := kv
          simp only [Option.some.injEq] at h
          simp_all
        rw [← h2]
        exact List.mem_cons_self _ _
      · rw [if_neg hk] at h
        exact List.mem_cons_of_mem _ (ih h)

theorem mem_mapSet (m : List (String × ℤ)) (k : String) (v : ℤ) (kv : String × ℤ)
    (h : kv ∈ mapSet m k v) : kv = (k, v) ∨ kv ∈ m := by
  induction m with
  | nil => simp [mapSet] at h; simp [h]
  | cons kv0 rest ih =>
      rw [mapSet] at h
      by_cases hk : kv0.1 = k
      · rw [if_pos hk] at h
        rcases List.mem_cons.mp h with h1 | h1
        · exact Or.inl h1
        · exact Or.inr (List.mem_cons_of_mem _ h1)
      · rw [if_neg hk] at h
        rcases List.mem_cons.mp h with h1 | h1
        · exact Or.inr (h1 ▸ List.mem_cons_self _ _)
        · rcases ih h1 with h2 | h2
          · exact Or.inl h2
          · exact Or.inr (List.mem_cons_of_mem _ h2)

theorem mem_mapDelete (m : List (String × ℤ)) (k : String) (kv : String × ℤ)
    (h : kv ∈ mapDelete m k) : kv ∈ m := by
  induction m with
  | nil => simp [mapDelete] at h
  | cons kv0 rest ih =>
      rw [mapDelete] at h
      by_cases hk : kv0.1 = k
      · rw [if_pos hk] at h
        exact List.mem_cons_of_mem _ (ih h)
      · rw [if_neg hk] at h
        rcases List.mem_cons.mp h with h1 | h1
        · exact h1 ▸ List.mem_cons_self _ _
        · exact List.mem_cons_of_mem _ (ih h1)

/-! ### Threshold constants match the source literals -/

theorem spawnThreshold_eq : spawnThreshold = (0.5 : ℚ) := by
  norm_num [spawnThreshold]

theorem valueThreshold_eq : valueThreshold = (0.7 : ℚ) := by
  norm_num [valueThreshold]

/-! ### `spawnStep` structural lemmas -/

theorem spawnStep_playerPosI (s : GameState) (key : String) :
    (spawnStep s key).playerPosI = s.playerPosI := by
  unfold spawnStep
  split
  · dsimp only
    split <;> rfl
  · rfl

theorem spawnStep_playerPosJ (s : GameState) (key : String) :
    (spawnStep s key).playerPosJ = s.playerPosJ := by
  unfold spawnStep
  split
  · dsimp only
    split <;> rfl
  · rfl

theorem spawnStep_heldToken (s : GameState) (key : String) :
    (spawnStep s key).heldToken = s.heldToken := by
  unfold spawnStep
  split
  · dsimp only
    split <;> rfl
  · rfl

theorem spawnStep_of_visited (s : GameState) (key : String) (h : key ∈ s.visited) :
    spawnStep s key = s := by
  unfold spawnStep
  rw [if_neg (by simpa using h)]

theorem spawnStep_visited_mono (s : GameState) (key k : String) (h : k ∈ s.visited) :
    k ∈ (spawnStep s key).visited := by
  unfold spawnStep
  split
  · dsimp only
    split <;> exact List.mem_append_left _ h
  · exact h

theorem spawnStep_visited_self (s : GameState) (key : String) :
    key ∈ (spawnStep s key).visited := by
  unfold spawnStep
  split
  · dsimp only
    split <;> exact List.mem_append_right _ (List.mem_singleton.mpr rfl)
  · simp_all

theorem spawnStep_mapGet_of_visited (s : GameState) (key k : String) (h : k ∈ s.visited) :
    mapGet (spawnStep s key).cellContents k = mapGet s.cellContents k := by
  by_cases hv : key ∈ s.visited
  · rw [spawnStep_of_visited s key hv]
  · have hne : key ≠ k := fun he => hv (he ▸ h)
    unfold spawnStep
    rw [if_pos hv]
    dsimp only
    split
    · exact mapGet_mapSet_of_ne _ _ _ _ hne
    · rfl

/-! ### Folding `spawnStep` over a key list -/

theorem foldl_spawnStep_playerPosI (l : List String) (s : GameState) :
    (l.foldl spawnStep s).playerPosI = s.playerPosI := by
  induction l generalizing s with
  | nil => rfl
  | cons k rest ih => rw [List.foldl_cons, ih, spawnStep_playerPosI]

theorem foldl_spawnStep_playerPosJ (l : List String) (s : GameState) :
    (l.foldl spawnStep s).playerPosJ = s.playerPosJ := by
  induction l generalizing s with
  | nil => rfl
  | cons k rest ih => rw [List.foldl_cons, ih, spawnStep_playerPosJ]

theorem foldl_spawnStep_heldToken (l : List String) (s : GameState) :
    (l.foldl spawnStep s).heldToken = s.heldToken := by
  induction l generalizing s with
  | nil => rfl
  | cons k rest ih => rw [List.foldl_cons, ih, spawnStep_heldToken]

theorem foldl_spawnStep_visited_mono (l : List String) (s : GameState) (k : String)
    (h : k ∈ s.visited) : k ∈ (l.foldl spawnStep s).visited := by
  induction l generalizing s with
  | nil => exact h
  | cons k0 rest ih => exact List.foldl_cons _ _ ▸ ih _ (spawnStep_visited_mono _ _ _ h)

theorem foldl_spawnStep_mapGet_of_visited (l : List String) (s : GameState) (k : String)
    (h : k ∈ s.visited) :
    mapGet (l.foldl spawnStep s).cellContents k = mapGet s.cellContents k := by
  induction l generalizing s with
  | nil => rfl
  | cons k0 rest ih =>
      rw [List.foldl_cons, ih _ (spawnStep_visited_mono _ _ _ h),
        spawnStep_mapGet_of_visited _ _ _ h]

theorem foldl_spawnStep_mem_visited (l : List String) (s : GameState) (k : String)
    (h : k ∈ l) : k ∈ (l.foldl spawnStep s).visited := by
  induction l generalizing s with
  | nil => simp at h
  | cons k0 rest ih =>
      rw [List.foldl_cons]
      rcases List.mem_cons.mp h with h1 | h1
      · exact foldl_spawnStep_visited_mono _ _ _ (h1 ▸ spawnStep_visited_self s k0)
      · exact ih _ h1

theorem foldl_spawnStep_id (l : List String) (s : GameState)
    (h : ∀ k ∈ l, k ∈ s.visited) : l.foldl spawnStep s = s := by
  induction l with
  | nil => rfl
  | cons k0 rest ih =>
      rw [List.foldl_cons, spawnStep_of_visited s k0 (h k0 (List.mem_cons_self _ _))]
      exact ih fun k hk => h k (List.mem_cons_of_mem _ hk)

/-! ### `redrawGrid` structural lemmas -/

theorem redrawGrid_playerPosI (s : GameState) :
    (redrawGrid s).playerPosI = s.playerPosI :=
  foldl_spawnStep_playerPosI _ _

theorem redrawGrid_playerPosJ (s : GameState) :
    (redrawGrid s).playerPosJ = s.playerPosJ :=
  foldl_spawnStep_playerPosJ _ _

theorem redrawGrid_heldToken (s : GameState) :
    (redrawGrid s).heldToken = s.heldToken :=
  foldl_spawnStep_heldToken _ _

theorem redrawGrid_idem_state (s : GameState) :
    redrawGrid (redrawGrid s) = redrawGrid s := by
  show (windowKeys (redrawGrid s).playerPosI (redrawGrid s).playerPosJ).foldl
      spawnStep (redrawGrid s) = redrawGrid s
  rw [redrawGrid_playerPosI, redrawGrid_playerPosJ]
  exact foldl_spawnStep_id _ _ fun k hk => foldl_spawnStep_mem_visited _ _ _ hk

/-! ### Claim theorems -/

/-- C3: for every coordinate already in the Visited Set, recomputing the
viewport (`redrawGrid`) never alters that coordinate's Cell Store entry
— a spawned value is not re-rolled and an emptied cell is not refilled —
and the coordinate remains in the Visited Set, so this holds however
often the viewport is recomputed. -/
theorem redrawGrid_never_alters_visited_cells (s : GameState) (key : String)
    (h : key ∈ s.visited) :
    mapGet (redrawGrid s).cellContents key = mapGet s.cellContents key ∧
    key ∈ (redrawGrid s).visited :=
  ⟨foldl_spawnStep_mapGet_of_visited _ _ _ h, foldl_spawnStep_visited_mono _ _ _ h⟩

/-- Witness for C3 at a concrete state holding a token on a visited cell. -/
theorem redrawGrid_never_alters_visited_cells_witness :
    "0,0" ∈ (GameState.mk 0 0 none [("0,0", 2)] ["0,0"]).visited ∧
    (mapGet (redrawGrid (GameState.mk 0 0 none [("0,0", 2)] ["0,0"])).cellContents "0,0" =
        mapGet (GameState.mk 0 0 none [("0,0", 2)] ["0,0"]).cellContents "0,0" ∧
      "0,0" ∈ (redrawGrid (GameState.mk 0 0 none [("0,0", 2)] ["0,0"])).visited) :=
  ⟨by decide, redrawGrid_never_alters_visited_cells _ "0,0" (by decide)⟩

/-- C4: for every target whose distance from the player exceeds 3 on
either axis, the cell click handler mutates nothing — state (player
position, held token, cell store) is returned unchanged — performs no
persistence call, and reports the reachability error; the gate is
checked before any mutation. -/
theorem attemptInteraction_reachability_gate (s : GameState) (i j : ℤ)
    (h : |i - s.playerPosI| > 3 ∨ |j - s.playerPosJ| > 3) :
    attemptInteraction s i j =
      { state := s, persisted := false, winSignal := false, reachError := true } := by
  unfold attemptInteraction
  dsimp only
  rw [if_pos h]

/-- Witness for C4 at a target four cells north of the player. -/
theorem attemptInteraction_reachability_gate_witness :
    (|4 - initialState.playerPosI| > 3 ∨ |0 - initialState.playerPosJ| > 3) ∧
    attemptInteraction initialState 4 0 =
      { state := initialState, persisted := false, winSignal := false, reachError := true } :=
  ⟨by decide, attemptInteraction_reachability_gate initialState 4 0 (by decide)⟩

/-- C8: `redrawGrid` is idempotent on the game state: running it twice
with no intervening state change yields exactly the Cell Store contents
and Visited Set of running it once. -/
theorem redrawGrid_idempotent (s : GameState) :
    (redrawGrid (redrawGrid s)).cellContents = (redrawGrid s).cellContents ∧
    (redrawGrid (redrawGrid s)).visited = (redrawGrid s).visited := by
  rw [redrawGrid_idem_state]
  exact ⟨rfl, rfl⟩

/-- Recomputing the viewport leaves the cell store entry of an already-visited key
unchanged (wrapper around the fold lemma). -/
theorem redrawGrid_mapGet_of_visited (s : GameState) (k : String) (h : k ∈ s.visited) :
    mapGet (redrawGrid s).cellContents k = mapGet s.cellContents k :=
  foldl_spawnStep_mapGet_of_visited _ _ _ h

/-- C5: for every reachable target, the interaction follows the branch
table on `(heldToken, cellValue)`: empty hand on empty cell is a no-op;
empty hand on a token picks it up; a held token over an empty cell is a
no-op; a held token over a different token swaps, leaving the cell with
the prior held token and the hand with the prior cell value. -/
theorem attemptInteraction_branch_table (s : GameState) (i j : ℤ)
    (hreach : ¬(|i - s.playerPosI| > 3 ∨ |j - s.playerPosJ| > 3)) :
    (s.heldToken = none → mapGet s.cellContents (cellKey i j) = none →
        attemptInteraction s i j =
          { state := s, persisted := false, winSignal := false, reachError := false }) ∧
    (∀ v, s.heldToken = none → mapGet s.cellContents (cellKey i j) = some v →
        (attemptInteraction s i j).state.heldToken = some v ∧
        mapGet (attemptInteraction s i j).state.cellContents (cellKey i j) = none) ∧
    (∀ h, s.heldToken = some h → mapGet s.cellContents (cellKey i j) = none →
        attemptInteraction s i j =
          { state := s, persisted := false, winSignal := false, reachError := false }) ∧
    (∀ h v, s.heldToken = some h → mapGet s.cellContents (cellKey i j) = some v → h ≠ v →
        mapGet (attemptInteraction s i j).state.cellContents (cellKey i j) = some h ∧
        (attemptInteraction s i j).state.heldToken = some v) := by
  refine ⟨?_, ?_, ?_, ?_⟩
  · intro hh hc
    unfold attemptInteraction
    dsimp only
    rw [if_neg hreach, hh, hc]
  · intro v hh hc
    unfold attemptInteraction
    dsimp only
    rw [if_neg hreach, hh, hc]
    exact ⟨rfl, mapGet_mapDelete_self _ _⟩
  · intro h hh hc
    unfold attemptInteraction
    dsimp only
    rw [if_neg hreach, hh, hc]
  · intro h v hh hc hne
    unfold attemptInteraction
    dsimp only
    rw [if_neg hreach, hh, hc]
    dsimp only
    rw [if_neg hne]
    exact ⟨mapGet_mapSet_self _ _ _, rfl⟩

/-- Witness for C5 at a state with one token in a reachable cell. -/
theorem attemptInteraction_branch_table_witness :
    ¬(|0 - branchState.playerPosI| > 3 ∨ |1 - branchState.playerPosJ| > 3) ∧
    ((branchState.heldToken = none → mapGet branchState.cellContents (cellKey 0 1) = none →
        attemptInteraction branchState 0 1 =
          { state := branchState, persisted := false, winSignal := false, reachError := false }) ∧
     (∀ v, branchState.heldToken = none →
        mapGet branchState.cellContents (cellKey 0 1) = some v →
        (attemptInteraction branchState 0 1).state.heldToken = some v ∧
        mapGet (attemptInteraction branchState 0 1).state.cellContents (cellKey 0 1) = none) ∧
     (∀ h, branchState.heldToken = some h →
        mapGet branchState.cellContents (cellKey 0 1) = none →
        attemptInteraction branchState 0 1 =
          { state := branchState, persisted := false, winSignal := false, reachError := false }) ∧
     (∀ h v, branchState.heldToken = some h →
        mapGet branchState.cellContents (cellKey 0 1) = some v → h ≠ v →
        mapGet (attemptInteraction branchState 0 1).state.cellContents (cellKey 0 1) = some h ∧
        (attemptInteraction branchState 0 1).state.heldToken = some v)) :=
  ⟨by decide, attemptInteraction_branch_table branchState 0 1 (by decide)⟩

/-- C6: a reachable merge (held token equals the cell value) doubles the
held token and clears the cell, and the WIN signal fires exactly when
the merge result equals 256 — and at no other interaction. -/
theorem merge_doubles_and_win_iff_256 (s : GameState) (i j : ℤ) :
    (∀ h, ¬(|i - s.playerPosI| > 3 ∨ |j - s.playerPosJ| > 3) →
        s.heldToken = some h → mapGet s.cellContents (cellKey i j) = some h →
        (attemptInteraction s i j).state.heldToken = some (h * 2) ∧
        mapGet (attemptInteraction s i j).state.cellContents (cellKey i j) = none ∧
        ((attemptInteraction s i j).winSignal = true ↔ h * 2 = 256)) ∧
    ((attemptInteraction s i j).winSignal = true →
        ∃ h, ¬(|i - s.playerPosI| > 3 ∨ |j - s.playerPosJ| > 3) ∧
          s.heldToken = some h ∧ mapGet s.cellContents (cellKey i j) = some h ∧
          h * 2 = 256) := by
  constructor
  · intro h hfar hh hc
    unfold attemptInteraction
    dsimp only
    rw [if_neg hfar, hh, hc]
    dsimp only
    rw [if_pos rfl]
    refine ⟨rfl, mapGet_mapDelete_self _ _, ?_⟩
    simp
  · intro hw
    unfold attemptInteraction at hw
    dsimp only at hw
    by_cases hfar : |i - s.playerPosI| > 3 ∨ |j - s.playerPosJ| > 3
    · rw [if_pos hfar] at hw
      simp at hw
    · rw [if_neg hfar] at hw
      rcases hh : s.heldToken with _ | h
      · rcases hc : mapGet s.cellContents (cellKey i j) with _ | v
        · rw [hh, hc] at hw
          simp at hw
        · rw [hh, hc] at hw
          simp at hw
      · rcases hc : mapGet s.cellContents (cellKey i j) with _ | v
        · rw [hh, hc] at hw
          simp at hw
        · rw [hh, hc] at hw
          dsimp only at hw
          by_cases hv : h = v
          · rw [if_pos hv] at hw
            simp only [decide_eq_true_eq] at hw
            exact ⟨h, hfar, rfl, by rw [hv], hw⟩
          · rw [if_neg hv] at hw
            simp at hw

/-- Witness for C6: holding 128 over a reachable cell holding 128. -/
theorem merge_doubles_and_win_iff_256_witness :
    (∀ h, ¬(|0 - mergeState.playerPosI| > 3 ∨ |1 - mergeState.playerPosJ| > 3) →
        mergeState.heldToken = some h → mapGet mergeState.cellContents (cellKey 0 1) = some h →
        (attemptInteraction mergeState 0 1).state.heldToken = some (h * 2) ∧
        mapGet (attemptInteraction mergeState 0 1).state.cellContents (cellKey 0 1) = none ∧
        ((attemptInteraction mergeState 0 1).winSignal = true ↔ h * 2 = 256)) ∧
    ((attemptInteraction mergeState 0 1).winSignal = true →
        ∃ h, ¬(|0 - mergeState.playerPosI| > 3 ∨ |1 - mergeState.playerPosJ| > 3) ∧
          mergeState.heldToken = some h ∧ mapGet mergeState.cellContents (cellKey 0 1) = some h ∧
          h * 2 = 256) :=
  merge_doubles_and_win_iff_256 mergeState 0 1

/-- C7: the spawn decision is a deterministic function of the cell key
alone — two independent draws, presence on the key and magnitude on the
key with the `"value"` suffix; an unvisited empty cell receives a token
iff the presence draw is below 0.5, with value 1 when the magnitude draw
is below 0.7 and 2 otherwise, identically in any two states. -/
theorem spawn_policy_deterministic (s1 s2 : GameState) (key : String)
    (h1 : key ∉ s1.visited) (h2 : key ∉ s2.visited)
    (hc1 : mapGet s1.cellContents key = none) (hc2 : mapGet s2.cellContents key = none) :
    mapGet (spawnStep s1 key).cellContents key =
      (if luck key < (0.5 : ℚ) then
         some (if luck (key ++ "value") < (0.7 : ℚ) then 1 else 2)
       else none) ∧
    mapGet (spawnStep s2 key).cellContents key = mapGet (spawnStep s1 key).cellContents key ∧
    key ∈ (spawnStep s1 key).visited := by
  have main : ∀ s : GameState, key ∉ s.visited → mapGet s.cellContents key = none →
      mapGet (spawnStep s key).cellContents key =
        (if luck key < (0.5 : ℚ) then
           some (if luck (key ++ "value") < (0.7 : ℚ) then 1 else 2)
         else none) := by
    intro s hv hc
    rw [← spawnThreshold_eq, ← valueThreshold_eq]
    unfold spawnStep
    rw [if_pos hv]
    dsimp only
    split
    · rw [mapGet_mapSet_self]
    · exact hc
  exact ⟨main s1 h1 hc1, (main s2 h2 hc2).trans (main s1 h1 hc1).symm,
    spawnStep_visited_self _ _⟩

/-- Witness for C7 at key "7,7" in two different states. -/
theorem spawn_policy_deterministic_witness :
    "7,7" ∉ initialState.visited ∧ "7,7" ∉ probeState.visited ∧
    mapGet initialState.cellContents "7,7" = none ∧
    mapGet probeState.cellContents "7,7" = none ∧
    (mapGet (spawnStep initialState "7,7").cellContents "7,7" =
      (if luck "7,7" < (0.5 : ℚ) then
         some (if luck ("7,7" ++ "value") < (0.7 : ℚ) then 1 else 2)
       else none) ∧
     mapGet (spawnStep probeState "7,7").cellContents "7,7" =
       mapGet (spawnStep initialState "7,7").cellContents "7,7" ∧
     "7,7" ∈ (spawnStep initialState "7,7").visited) :=
  ⟨by decide, by decide, by decide, by decide,
    spawn_policy_deterministic initialState probeState "7,7"
      (by decide) (by decide) (by decide) (by decide)⟩

/-- Spawning preserves the powers-of-two invariant: only 1 or 2 is ever
written by a spawn. -/
theorem goodState_spawnStep (s : GameState) (key : String) (h : GoodState s) :
    GoodState (spawnStep s key) := by
  obtain ⟨hh, hc⟩ := h
  unfold spawnStep
  split
  · dsimp only
    split
    · refine ⟨hh, ?_⟩
      intro kv hkv
      rcases mem_mapSet _ _ _ _ hkv with h1 | h1
      · rw [h1]
        dsimp only
        split
        · exact ⟨0, rfl⟩
        · exact ⟨1, rfl⟩
      · exact hc kv h1
    · exact ⟨hh, hc⟩
  · exact ⟨hh, hc⟩

/-- Folding spawn steps preserves the powers-of-two invariant. -/
theorem goodState_foldl_spawnStep (l : List String) (s : GameState) (h : GoodState s) :
    GoodState (l.foldl spawnStep s) := by
  induction l generalizing s with
  | nil => exact h
  | cons k rest ih => exact List.foldl_cons _ _ ▸ ih _ (goodState_spawnStep _ _ h)

/-- The interaction handler preserves the powers-of-two invariant:
pick-up and swap move existing values, merge doubles one. -/
theorem goodState_attemptInteraction (s : GameState) (i j : ℤ) (h : GoodState s) :
    GoodState (attemptInteraction s i j).state := by
  obtain ⟨hh, hc⟩ := h
  unfold attemptInteraction
  dsimp only
  split
  · exact ⟨hh, hc⟩
  · rcases hht : s.heldToken with _ | t <;>
      rcases hcv : mapGet s.cellContents (cellKey i j) with _ | v
    · exact ⟨hh, hc⟩
    · refine ⟨?_, ?_⟩
      · intro v2 hv2
        dsimp only at hv2
        cases hv2
        exact hc _ (mapGet_eq_some_mem _ _ _ hcv)
      · intro kv hkv
        exact hc kv (mem_mapDelete _ _ _ hkv)
    · exact ⟨hh, hc⟩
    · dsimp only
      split
      · refine ⟨?_, ?_⟩
        · intro v2 hv2
          dsimp only at hv2
          cases hv2
          obtain ⟨k, hk⟩ := hh t hht
          exact ⟨k + 1, by rw [hk, pow_succ]⟩
        · intro kv hkv
          exact hc kv (mem_mapDelete _ _ _ hkv)
      · refine ⟨?_, ?_⟩
        · intro v2 hv2
          dsimp only at hv2
          cases hv2
          exact hc _ (mapGet_eq_some_mem _ _ _ hcv)
        · intro kv hkv
          rcases mem_mapSet _ _ _ _ hkv with h1 | h1
          · rw [h1]
            exact hh t hht
          · exact hc kv h1

/-- C10: starting from a fresh game, every token value that ever
appears — stored in a cell or held — is a power of two: the fresh state
is trivially good, spawning writes only 1 and 2, and pick-up, merge
(doubling) and swap preserve the invariant. -/
theorem tokens_always_powers_of_two :
    GoodState initialState ∧
    (∀ s, GoodState s → GoodState (redrawGrid s)) ∧
    (∀ s i j, GoodState s → GoodState (attemptInteraction s i j).state) := by
  refine ⟨?_, ?_, ?_⟩
  · constructor
    · intro v hv
      simp [initialState] at hv
    · intro kv hkv
      simp [initialState] at hkv
  · intro s hs
    exact goodState_foldl_spawnStep _ _ hs
  · intro s i j hs
    exact goodState_attemptInteraction s i j hs

/-- Witness for C10: the invariant transported through a concrete
viewport draw and a concrete interaction from the fresh state. -/
theorem tokens_always_powers_of_two_witness :
    GoodState (redrawGrid initialState) ∧
    GoodState (attemptInteraction (redrawGrid initialState) 0 0).state :=
  ⟨tokens_always_powers_of_two.2.1 initialState tokens_always_powers_of_two.1,
   tokens_always_powers_of_two.2.2 (redrawGrid initialState) 0 0
     (tokens_always_powers_of_two.2.1 initialState tokens_always_powers_of_two.1)⟩

/-- C1 (code bug): at the concrete reachable state `playedState`, cell
(0,0) was visited and emptied by the player, yet after `load(save())`
the cell holds a token again: `loadState` rebuilds the visited set from
the cell store's keys only, so the emptied cell is missing from it and
`redrawGrid` deterministically re-rolls its original token. -/
theorem load_save_rerolls_emptied_cell :
    "0,0" ∈ playedState.visited ∧
    mapGet playedState.cellContents "0,0" = none ∧
    playedState.heldToken = some 1 ∧
    mapGet (loadState playedState (saveState playedState)).cellContents "0,0" = some 1 := by
  decide

/-- C2 counterexample: for the corrupt record of Scenario E (non-numeric
`playerPos.i`), `loadState` does not fall back entirely to defaults: it
adopts the record's `heldToken` and its numeric `cellContents` entries,
although the prior (default) state held nothing. -/
theorem load_adopts_fields_of_corrupt_record :
    playerPosValid corruptRecord.playerPos = false ∧
    initialState.heldToken = none ∧
    mapGet initialState.cellContents "1,2" = none ∧
    (loadStateRaw initialState corruptRecord).heldToken = some 5 ∧
    mapGet (loadStateRaw initialState corruptRecord).cellContents "1,2" = some 4 := by
  decide

/-- C2 (amended): `loadState` validates field by field. When the
`playerPos` guard fails, only the player position keeps its prior value;
`heldToken` is adopted from the record unconditionally and the cell
store is rebuilt from the record's numeric entries, whose values the
loaded state retains. -/
theorem load_validates_per_field (s : GameState) (g : RawSaved)
    (h : playerPosValid g.playerPos = false) :
    (loadStateRaw s g).playerPosI = s.playerPosI ∧
    (loadStateRaw s g).playerPosJ = s.playerPosJ ∧
    (loadStateRaw s g).heldToken = g.heldToken ∧
    (∀ k, k ∈ (importCellContents g.cellContents).map Prod.fst →
        mapGet (loadStateRaw s g).cellContents k =
          mapGet (importCellContents g.cellContents) k) := by
  unfold loadStateRaw
  dsimp only
  have hm : (match g.playerPos with
      | some (JVal.jnum a, JVal.jnum b) => ((a, b) : ℤ × ℤ)
      | _ => (s.playerPosI, s.playerPosJ)) = (s.playerPosI, s.playerPosJ) := by
    rcases hp : g.playerPos with _ | ⟨a, b⟩
    · rfl
    · rcases a with n | st | _ <;> rcases b with n2 | st2 | _ <;>
        simp_all [playerPosValid]
  rw [hm]
  refine ⟨?_, ?_, ?_, ?_⟩
  · rw [redrawGrid_playerPosI]
  · rw [redrawGrid_playerPosJ]
  · rw [redrawGrid_heldToken]
  · intro k hk
    exact redrawGrid_mapGet_of_visited _ _ hk

/-- Witness for the amended C2 at the corrupt record of Scenario E. -/
theorem load_validates_per_field_witness :
    playerPosValid corruptRecord.playerPos = false ∧
    ((loadStateRaw initialState corruptRecord).playerPosI = initialState.playerPosI ∧
     (loadStateRaw initialState corruptRecord).playerPosJ = initialState.playerPosJ ∧
     (loadStateRaw initialState corruptRecord).heldToken = corruptRecord.heldToken ∧
     (∀ k, k ∈ (importCellContents corruptRecord.cellContents).map Prod.fst →
        mapGet (loadStateRaw initialState corruptRecord).cellContents k =
          mapGet (importCellContents corruptRecord.cellContents) k)) :=
  ⟨by decide, load_validates_per_field initialState corruptRecord (by decide)⟩

/-- C9: in the continuous movement variant every sample is mapped to
the grid coordinate `(floor(lat / TILE_DEGREES), floor(lng / TILE_DEGREES))`;
the first sample is always accepted, a later sample is accepted iff it
differs from the last accepted grid coordinate by at least one cell on
either axis, an accepted sample becomes the player position, and a
rejected (sub-cell jitter) sample changes nothing. -/
theorem continuous_movement_mapping_and_jitter (s : GameState) (last : Option (ℤ × ℤ))
    (lat lng : ℚ) :
    latLngToGrid lat lng = (⌊lat / TILE_DEGREES⌋, ⌊lng / TILE_DEGREES⌋) ∧
    shouldUpdatePosition none (latLngToGrid lat lng) = true ∧
    (∀ q : ℤ × ℤ, shouldUpdatePosition (some q) (latLngToGrid lat lng) = true ↔
        1 ≤ |(latLngToGrid lat lng).1 - q.1| ∨ 1 ≤ |(latLngToGrid lat lng).2 - q.2|) ∧
    (shouldUpdatePosition last (latLngToGrid lat lng) = true →
        (handlePositionUpdate s last lat lng).1.playerPosI = ⌊lat / TILE_DEGREES⌋ ∧
        (handlePositionUpdate s last lat lng).1.playerPosJ = ⌊lng / TILE_DEGREES⌋ ∧
        (handlePositionUpdate s last lat lng).2 = some (latLngToGrid lat lng)) ∧
    (shouldUpdatePosition last (latLngToGrid lat lng) = false →
        handlePositionUpdate s last lat lng = (s, last)) := by
  refine ⟨rfl, rfl, ?_, ?_, ?_⟩
  · intro q
    simp [shouldUpdatePosition]
  · intro hacc
    unfold handlePositionUpdate
    dsimp only
    rw [if_pos hacc]
    refine ⟨?_, ?_, rfl⟩
    · rw [redrawGrid_playerPosI]
      rfl
    · rw [redrawGrid_playerPosJ]
      rfl
  · intro hrej
    simp [handlePositionUpdate, hrej]

/-- Witness for C9 at a concrete sample one cell north of the last
accepted position. -/
theorem continuous_movement_mapping_and_jitter_witness :
    latLngToGrid (mkRat 3 20000) 0 =
      (⌊(mkRat 3 20000) / TILE_DEGREES⌋, ⌊(0 : ℚ) / TILE_DEGREES⌋) ∧
    shouldUpdatePosition none (latLngToGrid (mkRat 3 20000) 0) = true ∧
    (∀ q : ℤ × ℤ, shouldUpdatePosition (some q) (latLngToGrid (mkRat 3 20000) 0) = true ↔
        1 ≤ |(latLngToGrid (mkRat 3 20000) 0).1 - q.1| ∨
          1 ≤ |(latLngToGrid (mkRat 3 20000) 0).2 - q.2|) ∧
    (shouldUpdatePosition (some (0, 0)) (latLngToGrid (mkRat 3 20000) 0) = true →
        (handlePositionUpdate initialState (some (0, 0)) (mkRat 3 20000) 0).1.playerPosI =
          ⌊(mkRat 3 20000) / TILE_DEGREES⌋ ∧
        (handlePositionUpdate initialState (some (0, 0)) (mkRat 3 20000) 0).1.playerPosJ =
          ⌊(0 : ℚ) / TILE_DEGREES⌋ ∧
        (handlePositionUpdate initialState (some (0, 0)) (mkRat 3 20000) 0).2 =
          some (latLngToGrid (mkRat 3 20000) 0)) ∧
    (shouldUpdatePosition (some (0, 0)) (latLngToGrid (mkRat 3 20000) 0) = false →
        handlePositionUpdate initialState (some (0, 0)) (mkRat 3 20000) 0 =
          (initialState, some (0, 0))) :=
  continuous_movement_mapping_and_jitter initialState (some (0, 0)) (mkRat 3 20000) 0
